import Mathlib

/-!
Verification of `itkCenteredTransformInitializer2.h` (elastix,
`src/Components/Transforms/AdvancedAffineTransform/`): a shallow embedding of
the `CenteredTransformInitializer2` class, its four mode selectors, and its
`InitializeTransform` entry point, together with theorems settling the spec
claims.

The header file declares the class, its data members and the inline mode
selectors; the out-of-line bodies (`InitializeTransform`, the constructor,
`ImageMomentsCalculator`, the ITK image geometry accessors) live outside the
provided sources and are modelled from the specification where noted.

Physical coordinates are rationals; a D-dimensional point or vector is a
`List ℚ` of length D, a matrix a `List (List ℚ)` of D rows of length D.
-/

namespace CTI2

/-- Componentwise addition of two coordinate vectors. -/
def vadd (a b : List ℚ) : List ℚ := List.zipWith (· + ·) a b

/-- Componentwise subtraction of two coordinate vectors. -/
def vsub (a b : List ℚ) : List ℚ := List.zipWith (· - ·) a b

/-- Componentwise (Hadamard) product of two coordinate vectors. -/
def hadamard (a b : List ℚ) : List ℚ := List.zipWith (· * ·) a b

/-- Scalar multiple of a coordinate vector. -/
def smul (c : ℚ) (v : List ℚ) : List ℚ := v.map (fun x => c * x)

/-- Dot product of a matrix row with a vector. -/
def dotRow (row v : List ℚ) : ℚ := (List.zipWith (· * ·) row v).sum

/-- Matrix · vector product, row by row. -/
def matVec (m : List (List ℚ)) (v : List ℚ) : List ℚ :=
  m.map (fun row => dotRow row v)

/-- The D×D identity matrix (the identity direction-cosine matrix). -/
def idMat : ℕ → List (List ℚ)
  | 0 => []
  | n + 1 => (1 :: List.replicate n 0) :: (idMat n).map (fun row => 0 :: row)

/-- Image geometry, as exposed by the ITK image interface consumed by the
initializer: origin (D-dim point), voxel spacing (D-dim vector),
direction-cosine matrix (D×D), discrete size (D nonnegative integers). -/
structure ImageGeom where
  origin : List ℚ
  spacing : List ℚ
  direction : List (List ℚ)
  size : List ℕ
deriving DecidableEq

/-- Dimension of an image geometry, read off its size vector. -/
def ImageGeom.dim (g : ImageGeom) : ℕ := g.size.length

/-- All attribute vectors of the geometry have length `D` (dimension
consistency of a single image, checked at initialization time). -/
def ImageGeom.wfDim (g : ImageGeom) (D : ℕ) : Bool :=
  g.size.length == D && g.origin.length == D && g.spacing.length == D &&
  g.direction.length == D && g.direction.all (fun row => row.length == D)

/-- Every axis of the image has size at least one. -/
def ImageGeom.sizesPositive (g : ImageGeom) : Bool :=
  g.size.all (fun n => 0 < n)

/-- Modelled from the spec: the ITK image geometry accessor's
index-to-physical transform (`TransformIndexToPhysicalPoint`, not under the
provided sources): applies spacing, direction cosines and origin, mapping an
index-space point to `origin + direction · (spacing ⊙ idx)`. -/
def indexToPhysical (g : ImageGeom) (idx : List ℚ) : List ℚ :=
  vadd g.origin (matVec g.direction (hadamard g.spacing idx))

/-- Modelled from the spec: the geometric center of an image in physical
space, `origin + direction · (spacing ⊙ (size − 1) / 2)`, i.e. the
index-space midpoint `(size − 1)/2` mapped through the geometry. -/
def geometricCenter (g : ImageGeom) : List ℚ :=
  indexToPhysical g (g.size.map (fun n => ((n : ℚ) - 1) / 2))

/-- Modelled from the spec: the 2^D index-space corner points of an image of
the given size, each axis coordinate either `0` or `size − 1` along that
axis. -/
def cornerIndices : List ℕ → List (List ℚ)
  | [] => [[]]
  | s :: rest =>
      (cornerIndices rest).flatMap (fun t => [(0 : ℚ) :: t, ((s : ℚ) - 1) :: t])

/-- Coordinate-wise minimum of a nonempty list of points. -/
def pointwiseMin : List (List ℚ) → List ℚ
  | [] => []
  | [p] => p
  | p :: q :: ps => List.zipWith min p (pointwiseMin (q :: ps))

/-- Modelled from the spec: the "minimum corner" of an image in GeometryTop
mode: map every index-space corner to physical space and take the
coordinate-wise minimum over all 2^D corners. -/
def minCorner (g : ImageGeom) : List ℚ :=
  pointwiseMin ((cornerIndices g.size).map (indexToPhysical g))

/-- An image as consumed by the initializer: its geometry plus its gray-level
values, one rational intensity per index-space voxel. -/
structure ImageData where
  geom : ImageGeom
  intensity : List ℕ → ℚ

/-- A binary image mask, true on the voxels the moments calculator may use. -/
def Mask : Type := List ℕ → Bool

/-- All index-space voxel coordinates of an image of the given size. -/
def allIndices : List ℕ → List (List ℕ)
  | [] => [[]]
  | s :: rest => (List.range s).flatMap (fun i => (allIndices rest).map (fun t => i :: t))

/-- The voxel coordinates the moments calculator visits: all of them when no
mask is set, those inside the mask otherwise. -/
def maskedIndices (size : List ℕ) (mask : Option Mask) : List (List ℕ) :=
  match mask with
  | none => allIndices size
  | some m => (allIndices size).filter m

/-- Sum of a list of points of dimension `d`. -/
def vsum (d : ℕ) (ps : List (List ℚ)) : List ℚ :=
  ps.foldl vadd (List.replicate d 0)

/-- Modelled from the spec: the moments calculator collaborator
(`ImageMomentsCalculator`, not under the provided sources). `Compute`
produces the intensity-weighted centroid of the (optionally masked) image in
physical space: `(∑ intensity(idx) · physical(idx)) / (∑ intensity(idx))`,
voxels outside the mask excluded. -/
def centerOfMass (img : ImageData) (mask : Option Mask) : List ℚ :=
  let idxs := maskedIndices img.geom.size mask
  let mass := (idxs.map img.intensity).sum
  (vsum img.geom.dim
      (idxs.map (fun idx =>
        smul (img.intensity idx) (indexToPhysical img.geom (idx.map (fun i => (i : ℚ))))))).map
    (fun x => x / mass)

/-- Modelled from the spec: the populated state of a moments calculator after
`Compute`, exposing the physical-space center of gravity. -/
structure MomentsCalculator where
  centerOfGravity : List ℚ
deriving DecidableEq

/-- The transform being initialized: its declared space dimension and the two
parameters the initializer writes (`SetCenter`, `SetTranslation`). -/
structure TransformState where
  dim : ℕ
  center : List ℚ
  translation : List ℚ
deriving DecidableEq

/-- The error kinds `InitializeTransform` reports. -/
inductive InitError where
  | missingInput
  | dimensionMismatch
  | degenerateGeometry
deriving DecidableEq

/-- The data members of `CenteredTransformInitializer2`
(itkCenteredTransformInitializer2.h, lines 191–203): the bound transform,
fixed and moving images, the two optional masks, the three mode flags and the
two moments-calculator pointers. -/
structure CenteredTransformInitializer2 where
  m_Transform : Option TransformState
  m_FixedImage : Option ImageData
  m_MovingImage : Option ImageData
  m_FixedImageMask : Option Mask
  m_MovingImageMask : Option Mask
  m_UseMoments : Bool
  m_UseOrigins : Bool
  m_UseTop : Bool
  m_FixedCalculator : Option MomentsCalculator
  m_MovingCalculator : Option MomentsCalculator

/-- `GeometryOn` (header line 168): `m_UseMoments = false; m_UseOrigins =
false; m_UseTop = false`. -/
def GeometryOn (s : CenteredTransformInitializer2) : CenteredTransformInitializer2 :=
  { s with m_UseMoments := false, m_UseOrigins := false, m_UseTop := false }

/-- `MomentsOn` (header line 169): `m_UseMoments = true; m_UseOrigins =
false; m_UseTop = false`. -/
def MomentsOn (s : CenteredTransformInitializer2) : CenteredTransformInitializer2 :=
  { s with m_UseMoments := true, m_UseOrigins := false, m_UseTop := false }

/-- `OriginsOn` (header line 170): `m_UseMoments = false; m_UseOrigins =
true; m_UseTop = false`. -/
def OriginsOn (s : CenteredTransformInitializer2) : CenteredTransformInitializer2 :=
  { s with m_UseMoments := false, m_UseOrigins := true, m_UseTop := false }

/-- `GeometryTopOn` (header line 171): `m_UseMoments = false; m_UseOrigins =
false; m_UseTop = true`. -/
def GeometryTopOn (s : CenteredTransformInitializer2) : CenteredTransformInitializer2 :=
  { s with m_UseMoments := false, m_UseOrigins := false, m_UseTop := true }

/-- Modelled from the spec: the constructor (declared header line 179, body
not under the provided sources): default mode is Geometry (all flags false),
nothing bound, calculators unset. -/
def mkInitializer : CenteredTransformInitializer2 where
  m_Transform := none
  m_FixedImage := none
  m_MovingImage := none
  m_FixedImageMask := none
  m_MovingImageMask := none
  m_UseMoments := false
  m_UseOrigins := false
  m_UseTop := false
  m_FixedCalculator := none
  m_MovingCalculator := none

/-- Modelled from the spec: `InitializeTransform` (declared header line 164,
body not under the provided sources). Validates that transform, fixed image
and moving image are bound (else MissingInput), that dimensionalities agree
(else DimensionMismatch), and that every image size is ≥ 1 (else
DegenerateGeometry); on any error the state — in particular the transform —
is returned unchanged. Otherwise it branches on the mode flags and writes
center and translation into the transform:
Moments: `center = movingCenterOfMass`,
`translation = movingCenterOfMass − fixedCenterOfMass` (calculators kept);
Origins: `translation = movingOrigin − fixedOrigin`,
`center = movingGeometricCenter − translation`;
GeometryTop: `translation = movingMinCorner − fixedMinCorner`,
`center = fixedGeometricCenter`;
Geometry (default): `center = fixedGeometricCenter`,
`translation = movingGeometricCenter − fixedGeometricCenter`. -/
def InitializeTransform (s : CenteredTransformInitializer2) :
    CenteredTransformInitializer2 × Option InitError :=
  match s.m_Transform, s.m_FixedImage, s.m_MovingImage with
  | some tr, some fx, some mv =>
    if fx.geom.wfDim tr.dim && mv.geom.wfDim tr.dim then
      if fx.geom.sizesPositive && mv.geom.sizesPositive then
        if s.m_UseMoments then
          let fc := centerOfMass fx s.m_FixedImageMask
          let mc := centerOfMass mv s.m_MovingImageMask
          ({ s with
              m_Transform := some { tr with center := mc, translation := vsub mc fc },
              m_FixedCalculator := some ⟨fc⟩,
              m_MovingCalculator := some ⟨mc⟩ }, none)
        else if s.m_UseOrigins then
          let t := vsub mv.geom.origin fx.geom.origin
          ({ s with
              m_Transform := some { tr with
                center := vsub (geometricCenter mv.geom) t, translation := t },
              m_FixedCalculator := none,
              m_MovingCalculator := none }, none)
        else if s.m_UseTop then
          ({ s with
              m_Transform := some { tr with
                center := geometricCenter fx.geom,
                translation := vsub (minCorner mv.geom) (minCorner fx.geom) },
              m_FixedCalculator := none,
              m_MovingCalculator := none }, none)
        else
          ({ s with
              m_Transform := some { tr with
                center := geometricCenter fx.geom,
                translation := vsub (geometricCenter mv.geom) (geometricCenter fx.geom) },
              m_FixedCalculator := none,
              m_MovingCalculator := none }, none)
      else (s, some .degenerateGeometry)
    else (s, some .dimensionMismatch)
  | _, _, _ => (s, some .missingInput)

/-- The four mode selectors of the class, as a closed dispatch type. -/
inductive ModeSelector where
  | geometry
  | moments
  | origins
  | top

/-- Dispatch a mode selector call to the corresponding member function. -/
def applySelector (s : CenteredTransformInitializer2) :
    ModeSelector → CenteredTransformInitializer2
  | .geometry => GeometryOn s
  | .moments => MomentsOn s
  | .origins => OriginsOn s
  | .top => GeometryTopOn s

/-- The triple of mode flags of a state. -/
def flagsOf (s : CenteredTransformInitializer2) : Bool × Bool × Bool :=
  (s.m_UseMoments, s.m_UseOrigins, s.m_UseTop)

/-- At most one of the three mode flags is set. -/
def atMostOneFlag (s : CenteredTransformInitializer2) : Prop :=
  s.m_UseMoments.toNat + s.m_UseOrigins.toNat + s.m_UseTop.toNat ≤ 1

/-- All members other than the three mode flags agree between two states. -/
def framePreserved (s t : CenteredTransformInitializer2) : Prop :=
  t.m_Transform = s.m_Transform ∧
  t.m_FixedImage = s.m_FixedImage ∧
  t.m_MovingImage = s.m_MovingImage ∧
  t.m_FixedImageMask = s.m_FixedImageMask ∧
  t.m_MovingImageMask = s.m_MovingImageMask ∧
  t.m_FixedCalculator = s.m_FixedCalculator ∧
  t.m_MovingCalculator = s.m_MovingCalculator

/-! Concrete instances used to witness the claim theorems: images are 2D with
identity direction cosines, matching the spec's worked examples. -/

/-- A 10×10 fixed image at the world origin with unit spacing. -/
def fxC1 : ImageData := ⟨⟨[0, 0], [1, 1], idMat 2, [10, 10]⟩, fun _ => 1⟩

/-- A 10×10 moving image with origin (2,2): its geometric center is
(6.5, 6.5). -/
def mvC1 : ImageData := ⟨⟨[2, 2], [1, 1], idMat 2, [10, 10]⟩, fun _ => 1⟩

/-- A fresh 2-dimensional transform. -/
def trC1 : TransformState := ⟨2, [0, 0], [0, 0]⟩

/-- Geometry-mode bound state for the spec's Geometry worked example. -/
def sC1 : CenteredTransformInitializer2 :=
  ⟨some trC1, some fxC1, some mvC1, none, none, false, false, false, none, none⟩

/-- A 4×4 moving image with origin (2,2): its minimum physical corner is
(2,2), its geometric center (3.5, 3.5). -/
def mvC2 : ImageData := ⟨⟨[2, 2], [1, 1], idMat 2, [4, 4]⟩, fun _ => 1⟩

/-- GeometryTop-mode bound state. -/
def sC2 : CenteredTransformInitializer2 :=
  ⟨some trC1, some fxC1, some mvC2, none, none, false, false, true, none, none⟩

/-- Geometry-mode state with the same bound images as `sC2`, used to compare
the two modes' outputs on the same 2D inputs. -/
def sC2geo : CenteredTransformInitializer2 :=
  ⟨some trC1, some fxC1, some mvC2, none, none, false, false, false, none, none⟩

/-- A 2×2 image with origin (1,2) and a non-uniform intensity pattern. -/
def imgC4 : ImageData :=
  ⟨⟨[1, 2], [1, 1], idMat 2, [2, 2]⟩, fun idx => if idx = [0, 0] then 2 else 1⟩

/-- Moments-mode state binding the same image as fixed and moving. -/
def sC4 : CenteredTransformInitializer2 :=
  ⟨some trC1, some imgC4, some imgC4, none, none, true, false, false, none, none⟩

/-- A 10×10 moving image with origin (3,4), for the Origins worked example. -/
def mvC5 : ImageData := ⟨⟨[3, 4], [1, 1], idMat 2, [10, 10]⟩, fun _ => 1⟩

/-- Origins-mode bound state with fixed origin (0,0), moving origin (3,4). -/
def sC5 : CenteredTransformInitializer2 :=
  ⟨some trC1, some fxC1, some mvC5, none, none, false, true, false, none, none⟩

/-- A fresh 3-dimensional transform, dimensionally incompatible with the 2D
images. -/
def trC7 : TransformState := ⟨3, [0, 0, 0], [0, 0, 0]⟩

/-- A bound state whose transform dimension (3) disagrees with its images
(2D). -/
def sC7dim : CenteredTransformInitializer2 :=
  ⟨some trC7, some fxC1, some mvC1, none, none, false, false, false, none, none⟩

/-- A 2D image with size zero along its first axis. -/
def fxC7deg : ImageData := ⟨⟨[0, 0], [1, 1], idMat 2, [0, 10]⟩, fun _ => 1⟩

/-- A bound state whose fixed image has a zero-sized axis. -/
def sC7deg : CenteredTransformInitializer2 :=
  ⟨some trC1, some fxC7deg, some mvC1, none, none, false, false, false, none, none⟩

/-- Moments-mode state used to witness the calculator-population claim. -/
def sC9 : CenteredTransformInitializer2 :=
  ⟨some trC1, some imgC4, some imgC4, none, none, true, false, false, none, none⟩

/-- Geometry-mode state used to witness that a non-Moments run leaves the
calculators unset. -/
def sC9geo : CenteredTransformInitializer2 :=
  ⟨some trC1, some fxC1, some mvC1, none, none, false, false, false, none, none⟩

/-! Auxiliary lemmas about the vector, corner and minimum operations. -/

lemma dotRow_cons (x a : ℚ) (row v : List ℚ) :
    dotRow (x :: row) (a :: v) = x * a + dotRow row v := by
  simp [dotRow]

lemma dotRow_replicate_zero (n : ℕ) (v : List ℚ) :
    dotRow (List.replicate n 0) v = 0 := by
  induction n generalizing v with
  | zero => simp [dotRow]
  | succ n ih =>
    cases v with
    | nil => simp [dotRow]
    | cons a v => rw [List.replicate_succ, dotRow_cons, ih v]; ring

lemma matVec_id (n : ℕ) (v : List ℚ) (h : v.length = n) :
    matVec (idMat n) v = v := by
  induction n generalizing v with
  | zero =>
    cases v with
    | nil => rfl
    | cons a v => simp at h
  | succ n ih =>
    cases v with
    | nil => simp at h
    | cons a v =>
      have hv : v.length = n := by simpa using h
      show (dotRow (1 :: List.replicate n 0) (a :: v)) ::
          ((idMat n).map (fun row => 0 :: row)).map (fun row => dotRow row (a :: v)) = a :: v
      have h1 : dotRow (1 :: List.replicate n 0) (a :: v) = a := by
        rw [dotRow_cons, dotRow_replicate_zero]; ring
      have h2 : ((idMat n).map (fun row => 0 :: row)).map (fun row => dotRow row (a :: v)) =
          (idMat n).map (fun row => dotRow row v) := by
        rw [List.map_map]
        exact List.map_congr_left (fun row _ => by
          show dotRow (0 :: row) (a :: v) = dotRow row v
          rw [dotRow_cons]; ring)
      rw [h1, h2]
      exact congrArg (List.cons a) (ih v hv)

lemma getD_zipWith (f : ℚ → ℚ → ℚ) (a b : List ℚ) (i : ℕ)
    (ha : i < a.length) (hb : i < b.length) :
    (List.zipWith f a b).getD i 0 = f (a.getD i 0) (b.getD i 0) := by
  have h : i < (List.zipWith f a b).length := by
    rw [List.length_zipWith]; omega
  rw [List.getD_eq_getElem _ _ h, List.getD_eq_getElem _ _ ha,
    List.getD_eq_getElem _ _ hb]
  exact List.getElem_zipWith

lemma vsub_self (v : List ℚ) : vsub v v = List.replicate v.length 0 := by
  induction v with
  | nil => rfl
  | cons a v ih => simp [vsub, List.replicate_succ] at ih ⊢

lemma pointwiseMin_cons₂ (p q : List ℚ) (ps : List (List ℚ)) :
    pointwiseMin (p :: q :: ps) = List.zipWith min p (pointwiseMin (q :: ps)) := rfl

lemma length_pointwiseMin (ps : List (List ℚ)) (p : List ℚ) (n : ℕ)
    (hp : p.length = n) (hq : ∀ q ∈ ps, q.length = n) :
    (pointwiseMin (p :: ps)).length = n := by
  induction ps generalizing p with
  | nil => simpa [pointwiseMin] using hp
  | cons r ps ih =>
    have hr : r.length = n := hq r (List.mem_cons_self r ps)
    have hrest : ∀ q ∈ ps, q.length = n := fun q hmem => hq q (List.mem_cons_of_mem r hmem)
    rw [pointwiseMin_cons₂, List.length_zipWith, hp, ih r hr hrest]
    exact min_self n

lemma pointwiseMin_le (ps : List (List ℚ)) (p : List ℚ) (n : ℕ)
    (hp : p.length = n) (hall : ∀ q ∈ ps, q.length = n) :
    ∀ q ∈ p :: ps, ∀ i, i < n →
      (pointwiseMin (p :: ps)).getD i 0 ≤ q.getD i 0 := by
  induction ps generalizing p with
  | nil =>
    intro q hqmem i hi
    rcases List.mem_singleton.mp hqmem with rfl
    simp [pointwiseMin]
  | cons r ps ih =>
    intro q hqmem i hi
    have hr : r.length = n := hall r (List.mem_cons_self r ps)
    have hrest : ∀ t ∈ ps, t.length = n := fun t hmem => hall t (List.mem_cons_of_mem r hmem)
    have hpm : (pointwiseMin (r :: ps)).length = n := length_pointwiseMin ps r n hr hrest
    have hzip : (pointwiseMin (p :: r :: ps)).getD i 0 =
        min (p.getD i 0) ((pointwiseMin (r :: ps)).getD i 0) := by
      rw [pointwiseMin_cons₂]
      exact getD_zipWith min p _ i (by omega) (by omega)
    rcases List.mem_cons.mp hqmem with rfl | hqmem
    · rw [hzip]; exact min_le_left _ _
    · rw [hzip]
      exact le_trans (min_le_right _ _) (ih r hr hrest q hqmem i hi)

lemma le_pointwiseMin (ps : List (List ℚ)) (p v : List ℚ) (n : ℕ)
    (hp : p.length = n) (hall : ∀ q ∈ ps, q.length = n)
    (hv : ∀ q ∈ p :: ps, ∀ i, i < n → v.getD i 0 ≤ q.getD i 0) :
    ∀ i, i < n → v.getD i 0 ≤ (pointwiseMin (p :: ps)).getD i 0 := by
  induction ps generalizing p with
  | nil =>
    intro i hi
    simpa [pointwiseMin] using hv p (List.mem_singleton_self p) i hi
  | cons r ps ih =>
    intro i hi
    have hr : r.length = n := hall r (List.mem_cons_self r ps)
    have hrest : ∀ t ∈ ps, t.length = n := fun t hmem => hall t (List.mem_cons_of_mem r hmem)
    have hpm : (pointwiseMin (r :: ps)).length = n := length_pointwiseMin ps r n hr hrest
    have hzip : (pointwiseMin (p :: r :: ps)).getD i 0 =
        min (p.getD i 0) ((pointwiseMin (r :: ps)).getD i 0) := by
      rw [pointwiseMin_cons₂]
      exact getD_zipWith min p _ i (by omega) (by omega)
    rw [hzip]
    refine le_min (hv p (List.mem_cons_self p _) i hi) ?_
    exact ih r hr hrest
      (fun q hqmem j hj => hv q (List.mem_cons_of_mem p hqmem) j hj) i hi

lemma length_flatMap_pair (L : List (List ℚ)) (f g : List ℚ → List ℚ) :
    (L.flatMap (fun t => [f t, g t])).length = 2 * L.length := by
  induction L with
  | nil => rfl
  | cons a L ih => simp [List.flatMap_cons, ih]; omega

lemma length_cornerIndices (sz : List ℕ) :
    (cornerIndices sz).length = 2 ^ sz.length := by
  induction sz with
  | nil => rfl
  | cons s rest ih =>
    show ((cornerIndices rest).flatMap
      (fun t => [(0 : ℚ) :: t, ((s : ℚ) - 1) :: t])).length = 2 ^ (s :: rest).length
    rw [length_flatMap_pair, ih, List.length_cons, pow_succ, Nat.mul_comm]

lemma cornerIndices_ne_nil (sz : List ℕ) : cornerIndices sz ≠ [] := by
  have h : (cornerIndices sz).length = 2 ^ sz.length := length_cornerIndices sz
  have hp : 0 < 2 ^ sz.length := pow_pos (by norm_num) _
  intro hnil
  rw [hnil] at h
  simp at h
  omega

lemma mem_cornerIndices_length (sz : List ℕ) (c : List ℚ)
    (hc : c ∈ cornerIndices sz) : c.length = sz.length := by
  induction sz generalizing c with
  | nil =>
    simp [cornerIndices] at hc
    simp [hc]
  | cons s rest ih =>
    simp [cornerIndices, List.mem_flatMap] at hc
    obtain ⟨t, ht, rfl | rfl⟩ := hc <;> simp [ih t ht]

lemma mem_cornerIndices_getD (sz : List ℕ) (c : List ℚ)
    (hc : c ∈ cornerIndices sz) :
    ∀ i, i < sz.length →
      c.getD i 0 = 0 ∨ c.getD i 0 = ((sz.getD i 0 : ℚ)) - 1 := by
  induction sz generalizing c with
  | nil => intro i hi; simp at hi
  | cons s rest ih =>
    intro i hi
    simp [cornerIndices, List.mem_flatMap] at hc
    obtain ⟨t, ht, rfl | rfl⟩ := hc
    · cases i with
      | zero => simp
      | succ j => simpa using ih t ht j (by simpa using hi)
    · cases i with
      | zero => simp
      | succ j => simpa using ih t ht j (by simpa using hi)

lemma zeros_mem_cornerIndices (sz : List ℕ) :
    sz.map (fun _ => (0 : ℚ)) ∈ cornerIndices sz := by
  induction sz with
  | nil => simp [cornerIndices]
  | cons s rest ih =>
    simp only [cornerIndices, List.map_cons, List.mem_flatMap]
    exact ⟨rest.map (fun _ => (0 : ℚ)), ih, by simp⟩

lemma minCorner_id (g : ImageGeom) (hdir : g.direction = idMat g.dim)
    (hwf : g.wfDim g.dim = true) (hsp : ∀ x ∈ g.spacing, 0 < x)
    (hsz : g.sizesPositive = true) : minCorner g = g.origin := by
  have hwf' := hwf
  rw [ImageGeom.wfDim] at hwf'
  rw [Bool.and_eq_true, Bool.and_eq_true, Bool.and_eq_true, Bool.and_eq_true] at hwf'
  obtain ⟨⟨⟨⟨-, hb⟩, hc⟩, -⟩, -⟩ := hwf'
  have hol : g.origin.length = g.dim := by simpa using hb
  have hpl : g.spacing.length = g.dim := by simpa using hc
  have hszpos : ∀ n ∈ g.size, 0 < n := by
    simpa [ImageGeom.sizesPositive] using hsz
  have hdim : g.dim = g.size.length := rfl
  -- with identity direction, a corner maps to origin + spacing ⊙ corner
  have hmap : ∀ c ∈ cornerIndices g.size,
      indexToPhysical g c = vadd g.origin (hadamard g.spacing c) := by
    intro c hc
    have hcl : c.length = g.dim := mem_cornerIndices_length g.size c hc
    have hhl : (hadamard g.spacing c).length = g.dim := by
      simp only [hadamard, List.length_zipWith, hpl, hcl, min_self]
    rw [indexToPhysical, hdir, matVec_id g.dim (hadamard g.spacing c) hhl]
  have hgetD : ∀ c ∈ cornerIndices g.size, ∀ i, i < g.dim →
      (indexToPhysical g c).getD i 0 =
        g.origin.getD i 0 + g.spacing.getD i 0 * c.getD i 0 := by
    intro c hc i hi
    have hcl : c.length = g.dim := mem_cornerIndices_length g.size c hc
    rw [hmap c hc]
    simp only [vadd, hadamard]
    rw [getD_zipWith _ _ _ i (by omega)
        (by simp only [List.length_zipWith]; omega),
      getD_zipWith _ _ _ i (by omega) (by omega)]
  have hlenmap : ∀ q ∈ (cornerIndices g.size).map (indexToPhysical g),
      q.length = g.dim := by
    intro q hq
    obtain ⟨c, hc, rfl⟩ := List.mem_map.mp hq
    have hcl : c.length = g.dim := mem_cornerIndices_length g.size c hc
    rw [hmap c hc]
    simp only [vadd, hadamard, List.length_zipWith, hol, hpl, hcl, min_self]
  have hne : (cornerIndices g.size).map (indexToPhysical g) ≠ [] := by
    intro hnil
    exact cornerIndices_ne_nil g.size (by simpa using congrArg List.length hnil)
  obtain ⟨p, ps, hcons⟩ := List.exists_cons_of_ne_nil hne
  have hplen : p.length = g.dim := hlenmap p (by rw [hcons]; exact List.mem_cons_self p ps)
  have hpslen : ∀ q ∈ ps, q.length = g.dim :=
    fun q hq => hlenmap q (by rw [hcons]; exact List.mem_cons_of_mem p hq)
  have hminlen : (minCorner g).length = g.dim := by
    rw [minCorner, hcons]
    exact length_pointwiseMin ps p g.dim hplen hpslen
  apply List.ext_getElem (by rw [hminlen, hol])
  intro i h1 h2
  have hi : i < g.dim := by rw [hminlen] at h1; exact h1
  rw [← List.getD_eq_getElem _ 0 h1, ← List.getD_eq_getElem _ 0 h2]
  have hzmem : g.size.map (fun _ => (0 : ℚ)) ∈ cornerIndices g.size :=
    zeros_mem_cornerIndices g.size
  apply le_antisymm
  · -- the image of the all-zeros corner is the origin itself
    have hz0 : (g.size.map (fun _ => (0 : ℚ))).getD i 0 = 0 := by
      have hlt : i < (g.size.map (fun _ => (0 : ℚ))).length := by
        simp only [List.length_map]; omega
      rw [List.getD_eq_getElem _ _ hlt, List.getElem_map]
    have hval : (indexToPhysical g (g.size.map (fun _ => (0 : ℚ)))).getD i 0 =
        g.origin.getD i 0 := by
      rw [hgetD _ hzmem i hi, hz0]; ring
    have hqmem : indexToPhysical g (g.size.map (fun _ => (0 : ℚ))) ∈
        p :: ps := by
      rw [← hcons]; exact List.mem_map_of_mem _ hzmem
    have hle := pointwiseMin_le ps p g.dim hplen hpslen _ hqmem i hi
    rw [hval] at hle
    rw [minCorner, hcons]
    exact hle
  · -- the origin is a coordinate-wise lower bound of every mapped corner
    rw [minCorner, hcons]
    refine le_pointwiseMin ps p g.origin g.dim hplen hpslen ?_ i hi
    intro q hq j hj
    have hq' : q ∈ (cornerIndices g.size).map (indexToPhysical g) := by
      rw [hcons]; exact hq
    obtain ⟨c, hc, rfl⟩ := List.mem_map.mp hq'
    rw [hgetD c hc j hj]
    have hspj : 0 < g.spacing.getD j 0 := by
      have hlt : j < g.spacing.length := by omega
      rw [List.getD_eq_getElem _ _ hlt]
      exact hsp _ (List.getElem_mem hlt)
    have hcj : c.getD j 0 = 0 ∨ c.getD j 0 = ((g.size.getD j 0 : ℚ)) - 1 :=
      mem_cornerIndices_getD g.size c hc j (by omega)
    have hsj : 1 ≤ g.size.getD j 0 := by
      have hlt : j < g.size.length := by omega
      rw [List.getD_eq_getElem _ _ hlt]
      exact hszpos _ (List.getElem_mem hlt)
    have hnn : 0 ≤ g.spacing.getD j 0 * c.getD j 0 := by
      rcases hcj with hcj | hcj
      · rw [hcj]; ring_nf; rfl
      · rw [hcj]
        apply mul_nonneg (le_of_lt hspj)
        have : (1 : ℚ) ≤ (g.size.getD j 0 : ℚ) := by exact_mod_cast hsj
        linarith
    linarith

lemma wfDim_dim_eq (g : ImageGeom) (D : ℕ) (h : g.wfDim D = true) :
    g.dim = D ∧ g.wfDim g.dim = true := by
  have h' := h
  rw [ImageGeom.wfDim, Bool.and_eq_true, Bool.and_eq_true, Bool.and_eq_true,
    Bool.and_eq_true] at h'
  obtain ⟨⟨⟨⟨ha, -⟩, -⟩, -⟩, -⟩ := h'
  have hdim : g.dim = D := by simpa [ImageGeom.dim] using ha
  exact ⟨hdim, by rw [hdim]; exact h⟩

lemma and_true_split (a b : Bool) (h : (a && b) = true) :
    a = true ∧ b = true := by
  rw [Bool.and_eq_true] at h
  exact h

lemma applySelector_atMostOne (s : CenteredTransformInitializer2)
    (sel : ModeSelector) : atMostOneFlag (applySelector s sel) := by
  cases sel <;>
    simp [applySelector, GeometryOn, MomentsOn, OriginsOn, GeometryTopOn,
      atMostOneFlag]

lemma foldl_applySelector_atMostOne (l : List ModeSelector)
    (s : CenteredTransformInitializer2) (sel : ModeSelector) :
    atMostOneFlag (l.foldl applySelector (applySelector s sel)) := by
  induction l generalizing s sel with
  | nil => simpa using applySelector_atMostOne s sel
  | cons a l ih => simpa [List.foldl_cons] using ih (applySelector s sel) a

/-- The worked 2D comparison: on the same pair of bound images (10×10 fixed
at origin, 4×4 moving at (2,2), identity directions, unit spacing) the
GeometryTop run writes translation (2,2) while the Geometry run writes
(−1,−1): the two modes do not coincide in 2D. -/
lemma top_ne_geometry_example :
    (InitializeTransform sC2).1.m_Transform.elim [] TransformState.translation ≠
      (InitializeTransform sC2geo).1.m_Transform.elim [] TransformState.translation := by
  have h1 : (InitializeTransform sC2).1.m_Transform.elim []
      TransformState.translation = [2, 2] := by
    norm_num [InitializeTransform, sC2, fxC1, mvC2, trC1, minCorner,
      cornerIndices, pointwiseMin, indexToPhysical, vadd, vsub, matVec,
      hadamard, dotRow, idMat, ImageGeom.wfDim, ImageGeom.sizesPositive]
  have h2 : (InitializeTransform sC2geo).1.m_Transform.elim []
      TransformState.translation = [-1, -1] := by
    norm_num [InitializeTransform, sC2geo, fxC1, mvC2, trC1, geometricCenter,
      indexToPhysical, vadd, vsub, matVec, hadamard, dotRow, idMat,
      ImageGeom.wfDim, ImageGeom.sizesPositive]
  rw [h1, h2]
  intro hcontra
  exact absurd (List.head_eq_of_cons_eq hcontra) (by norm_num)

/-! The claim theorems. -/

/-- C1: in Geometry mode (the default: all three mode flags false),
`InitializeTransform` succeeds on bound, dimension-consistent, nonempty
images and writes into the bound transform
`center = fixedGeometricCenter` and
`translation = movingGeometricCenter − fixedGeometricCenter`, where each
image's geometric center is `origin + direction · (spacing ⊙ (size − 1) / 2)`
in physical space. -/
theorem C1_geometry_mode (s : CenteredTransformInitializer2)
    (tr : TransformState) (fx mv : ImageData)
    (ht : s.m_Transform = some tr) (hf : s.m_FixedImage = some fx)
    (hm : s.m_MovingImage = some mv)
    (hwf : (fx.geom.wfDim tr.dim && mv.geom.wfDim tr.dim) = true)
    (hpos : (fx.geom.sizesPositive && mv.geom.sizesPositive) = true)
    (h1 : s.m_UseMoments = false) (h2 : s.m_UseOrigins = false)
    (h3 : s.m_UseTop = false) :
    (InitializeTransform s).2 = none ∧
    (InitializeTransform s).1.m_Transform = some { tr with
      center := vadd fx.geom.origin (matVec fx.geom.direction
        (hadamard fx.geom.spacing (fx.geom.size.map (fun n => ((n : ℚ) - 1) / 2)))),
      translation := vsub
        (vadd mv.geom.origin (matVec mv.geom.direction
          (hadamard mv.geom.spacing (mv.geom.size.map (fun n => ((n : ℚ) - 1) / 2)))))
        (vadd fx.geom.origin (matVec fx.geom.direction
          (hadamard fx.geom.spacing (fx.geom.size.map (fun n => ((n : ℚ) - 1) / 2))))) } := by
  simp [InitializeTransform, ht, hf, hm, hwf, hpos, h1, h2, h3,
    geometricCenter, indexToPhysical]

/-- Witness for C1: the spec's worked Geometry example, 10×10 images with
origins (0,0) and (2,2). -/
theorem C1_geometry_mode_witness :
    ((fxC1.geom.wfDim trC1.dim && mvC1.geom.wfDim trC1.dim) = true) ∧
    (InitializeTransform sC1).2 = none ∧
    (InitializeTransform sC1).1.m_Transform = some { trC1 with
      center := vadd fxC1.geom.origin (matVec fxC1.geom.direction
        (hadamard fxC1.geom.spacing (fxC1.geom.size.map (fun n => ((n : ℚ) - 1) / 2)))),
      translation := vsub
        (vadd mvC1.geom.origin (matVec mvC1.geom.direction
          (hadamard mvC1.geom.spacing (mvC1.geom.size.map (fun n => ((n : ℚ) - 1) / 2)))))
        (vadd fxC1.geom.origin (matVec fxC1.geom.direction
          (hadamard fxC1.geom.spacing (fxC1.geom.size.map (fun n => ((n : ℚ) - 1) / 2))))) } :=
  ⟨by decide,
    C1_geometry_mode sC1 trC1 fxC1 mvC1 rfl rfl rfl (by decide) (by decide)
      rfl rfl rfl⟩

/-- C2: in GeometryTop mode, `InitializeTransform` writes
`center = fixedGeometricCenter` and `translation = movingMinCorner −
fixedMinCorner`, where each image's minimum corner is the coordinate-wise
minimum of its 2^D index-space corner points mapped to physical space;
`cornerIndices` enumerates exactly 2^D corners, each with every axis
coordinate either 0 or size − 1. -/
theorem C2_geometryTop_mode (s : CenteredTransformInitializer2)
    (tr : TransformState) (fx mv : ImageData)
    (ht : s.m_Transform = some tr) (hf : s.m_FixedImage = some fx)
    (hm : s.m_MovingImage = some mv)
    (hwf : (fx.geom.wfDim tr.dim && mv.geom.wfDim tr.dim) = true)
    (hpos : (fx.geom.sizesPositive && mv.geom.sizesPositive) = true)
    (h1 : s.m_UseMoments = false) (h2 : s.m_UseOrigins = false)
    (h3 : s.m_UseTop = true) :
    (InitializeTransform s).2 = none ∧
    (InitializeTransform s).1.m_Transform = some { tr with
      center := geometricCenter fx.geom,
      translation := vsub
        (pointwiseMin ((cornerIndices mv.geom.size).map (indexToPhysical mv.geom)))
        (pointwiseMin ((cornerIndices fx.geom.size).map (indexToPhysical fx.geom))) } ∧
    (cornerIndices fx.geom.size).length = 2 ^ fx.geom.dim ∧
    (cornerIndices mv.geom.size).length = 2 ^ mv.geom.dim ∧
    (∀ c ∈ cornerIndices fx.geom.size, c.length = fx.geom.dim ∧
      ∀ i, i < fx.geom.dim →
        c.getD i 0 = 0 ∨ c.getD i 0 = ((fx.geom.size.getD i 0 : ℚ)) - 1) ∧
    (∀ c ∈ cornerIndices mv.geom.size, c.length = mv.geom.dim ∧
      ∀ i, i < mv.geom.dim →
        c.getD i 0 = 0 ∨ c.getD i 0 = ((mv.geom.size.getD i 0 : ℚ)) - 1) := by
  refine ⟨?_, ?_, length_cornerIndices _, length_cornerIndices _, ?_, ?_⟩
  · simp [InitializeTransform, ht, hf, hm, hwf, hpos, h1, h2, h3]
  · simp [InitializeTransform, ht, hf, hm, hwf, hpos, h1, h2, h3, minCorner]
  · exact fun c hc => ⟨mem_cornerIndices_length _ c hc,
      fun i hi => mem_cornerIndices_getD _ c hc i hi⟩
  · exact fun c hc => ⟨mem_cornerIndices_length _ c hc,
      fun i hi => mem_cornerIndices_getD _ c hc i hi⟩

/-- Witness for C2: GeometryTop run on the 10×10 fixed image at the origin
and the 4×4 moving image at (2,2). -/
theorem C2_geometryTop_mode_witness :
    ((fxC1.geom.wfDim trC1.dim && mvC2.geom.wfDim trC1.dim) = true) ∧
    (InitializeTransform sC2).2 = none ∧
    (InitializeTransform sC2).1.m_Transform = some { trC1 with
      center := geometricCenter fxC1.geom,
      translation := vsub
        (pointwiseMin ((cornerIndices mvC2.geom.size).map (indexToPhysical mvC2.geom)))
        (pointwiseMin ((cornerIndices fxC1.geom.size).map (indexToPhysical fxC1.geom))) } :=
  have h := C2_geometryTop_mode sC2 trC1 fxC1 mvC2 rfl rfl rfl (by decide)
    (by decide) rfl rfl rfl
  ⟨by decide, h.1, h.2.1⟩

/-- C5: in Origins mode, `InitializeTransform` writes
`translation = movingOrigin − fixedOrigin` and
`center = movingGeometricCenter − translation`. -/
theorem C5_origins_mode (s : CenteredTransformInitializer2)
    (tr : TransformState) (fx mv : ImageData)
    (ht : s.m_Transform = some tr) (hf : s.m_FixedImage = some fx)
    (hm : s.m_MovingImage = some mv)
    (hwf : (fx.geom.wfDim tr.dim && mv.geom.wfDim tr.dim) = true)
    (hpos : (fx.geom.sizesPositive && mv.geom.sizesPositive) = true)
    (h1 : s.m_UseMoments = false) (h2 : s.m_UseOrigins = true) :
    (InitializeTransform s).2 = none ∧
    (InitializeTransform s).1.m_Transform = some { tr with
      center := vsub (geometricCenter mv.geom) (vsub mv.geom.origin fx.geom.origin),
      translation := vsub mv.geom.origin fx.geom.origin } := by
  simp [InitializeTransform, ht, hf, hm, hwf, hpos, h1, h2]

/-- Witness for C5: fixed origin (0,0), moving origin (3,4). -/
theorem C5_origins_mode_witness :
    ((fxC1.geom.wfDim trC1.dim && mvC5.geom.wfDim trC1.dim) = true) ∧
    (InitializeTransform sC5).2 = none ∧
    (InitializeTransform sC5).1.m_Transform = some { trC1 with
      center := vsub (geometricCenter mvC5.geom) (vsub mvC5.geom.origin fxC1.geom.origin),
      translation := vsub mvC5.geom.origin fxC1.geom.origin } :=
  ⟨by decide,
    C5_origins_mode sC5 trC1 fxC1 mvC5 rfl rfl rfl (by decide) (by decide)
      rfl rfl⟩

/-- C6: whenever the transform, the fixed image or the moving image is
unbound, `InitializeTransform` fails with MissingInput and returns the state
— in particular the bound transform — unchanged, whatever the mode flags. -/
theorem C6_missing_input (s : CenteredTransformInitializer2)
    (h : s.m_Transform = none ∨ s.m_FixedImage = none ∨ s.m_MovingImage = none) :
    InitializeTransform s = (s, some InitError.missingInput) := by
  obtain ⟨t, f, m, fm, mm, um, uo, ut, fc, mc⟩ := s
  rcases h with h | h | h
  · simp only at h
    subst h
    rfl
  · simp only at h
    subst h
    rcases t with _ | tr <;> rfl
  · simp only at h
    subst h
    rcases t with _ | tr
    · rfl
    · rcases f with _ | fx <;> rfl

/-- Witness for C6: a freshly constructed initializer has nothing bound and
fails with MissingInput. -/
theorem C6_missing_input_witness :
    InitializeTransform mkInitializer = (mkInitializer, some InitError.missingInput) :=
  C6_missing_input mkInitializer (Or.inl rfl)

/-- C7: with everything bound, `InitializeTransform` fails with
DimensionMismatch when the dimension-consistency check fails, and with
DegenerateGeometry when the dimensions agree but some image has a zero-sized
axis; in both cases the returned state — and hence the transform — is the
input state, with no partial writes. -/
theorem C7_validation_errors (s : CenteredTransformInitializer2)
    (tr : TransformState) (fx mv : ImageData)
    (ht : s.m_Transform = some tr) (hf : s.m_FixedImage = some fx)
    (hm : s.m_MovingImage = some mv) :
    ((fx.geom.wfDim tr.dim && mv.geom.wfDim tr.dim) = false →
      InitializeTransform s = (s, some InitError.dimensionMismatch)) ∧
    ((fx.geom.wfDim tr.dim && mv.geom.wfDim tr.dim) = true →
      (fx.geom.sizesPositive && mv.geom.sizesPositive) = false →
      InitializeTransform s = (s, some InitError.degenerateGeometry)) := by
  constructor
  · intro hwf
    simp [InitializeTransform, ht, hf, hm, hwf]
  · intro hwf hpos
    simp [InitializeTransform, ht, hf, hm, hwf, hpos]

/-- Witness for C7: a 3D transform bound with 2D images yields
DimensionMismatch; a zero-sized fixed-image axis yields DegenerateGeometry. -/
theorem C7_validation_errors_witness :
    InitializeTransform sC7dim = (sC7dim, some InitError.dimensionMismatch) ∧
    InitializeTransform sC7deg = (sC7deg, some InitError.degenerateGeometry) :=
  ⟨(C7_validation_errors sC7dim trC7 fxC1 mvC1 rfl rfl rfl).1 (by decide),
    (C7_validation_errors sC7deg trC1 fxC7deg mvC1 rfl rfl rfl).2 (by decide)
      (by decide)⟩

/-- C3: for an image with identity direction cosines and positive spacing the
GeometryTop minimum corner equals the image's origin; hence a GeometryTop run
on such images writes `translation = movingOrigin − fixedOrigin`, independent
of the images' sizes — and on a concrete 2D pair this differs from the
Geometry-mode translation, against the header's note that the two modes
coincide in 2D. -/
theorem C3_geometryTop_is_origin_difference (s : CenteredTransformInitializer2)
    (tr : TransformState) (fx mv : ImageData)
    (ht : s.m_Transform = some tr) (hf : s.m_FixedImage = some fx)
    (hm : s.m_MovingImage = some mv)
    (hdf : fx.geom.direction = idMat fx.geom.dim)
    (hdm : mv.geom.direction = idMat mv.geom.dim)
    (hspf : ∀ x ∈ fx.geom.spacing, 0 < x)
    (hspm : ∀ x ∈ mv.geom.spacing, 0 < x)
    (hwf : (fx.geom.wfDim tr.dim && mv.geom.wfDim tr.dim) = true)
    (hpos : (fx.geom.sizesPositive && mv.geom.sizesPositive) = true)
    (h1 : s.m_UseMoments = false) (h2 : s.m_UseOrigins = false)
    (h3 : s.m_UseTop = true) :
    minCorner fx.geom = fx.geom.origin ∧
    minCorner mv.geom = mv.geom.origin ∧
    (InitializeTransform s).2 = none ∧
    (InitializeTransform s).1.m_Transform = some { tr with
      center := geometricCenter fx.geom,
      translation := vsub mv.geom.origin fx.geom.origin } ∧
    (InitializeTransform sC2).1.m_Transform.elim [] TransformState.translation ≠
      (InitializeTransform sC2geo).1.m_Transform.elim [] TransformState.translation := by
  obtain ⟨hwff, hwfm⟩ := and_true_split _ _ hwf
  obtain ⟨hposf, hposm⟩ := and_true_split _ _ hpos
  obtain ⟨-, hwff'⟩ := wfDim_dim_eq fx.geom tr.dim hwff
  obtain ⟨-, hwfm'⟩ := wfDim_dim_eq mv.geom tr.dim hwfm
  have hminf : minCorner fx.geom = fx.geom.origin :=
    minCorner_id fx.geom hdf hwff' hspf hposf
  have hminm : minCorner mv.geom = mv.geom.origin :=
    minCorner_id mv.geom hdm hwfm' hspm hposm
  have hrun : (InitializeTransform s).2 = none ∧
      (InitializeTransform s).1.m_Transform = some { tr with
        center := geometricCenter fx.geom,
        translation := vsub (minCorner mv.geom) (minCorner fx.geom) } := by
    constructor <;> simp [InitializeTransform, ht, hf, hm, hwf, hpos, h1, h2, h3]
  refine ⟨hminf, hminm, hrun.1, ?_, top_ne_geometry_example⟩
  rw [hrun.2, hminf, hminm]

/-- Witness for C3: the GeometryTop run on the 2D example pair (identity
directions, unit spacing) writes translation (2,2) = movingOrigin −
fixedOrigin. -/
theorem C3_geometryTop_is_origin_difference_witness :
    ((fxC1.geom.wfDim trC1.dim && mvC2.geom.wfDim trC1.dim) = true) ∧
    minCorner fxC1.geom = fxC1.geom.origin ∧
    minCorner mvC2.geom = mvC2.geom.origin ∧
    (InitializeTransform sC2).1.m_Transform = some { trC1 with
      center := geometricCenter fxC1.geom,
      translation := vsub mvC2.geom.origin fxC1.geom.origin } :=
  have h := C3_geometryTop_is_origin_difference sC2 trC1 fxC1 mvC2 rfl rfl rfl
    (by decide) (by decide) (by decide) (by decide) (by decide) (by decide)
    rfl rfl rfl
  ⟨by decide, h.1, h.2.1, h.2.2.2.1⟩

/-- C4: in Moments mode, `InitializeTransform` computes each image's
intensity-weighted center of mass (restricted by the corresponding optional
mask), stores one populated moments calculator per image, and writes
`center = movingCenterOfMass` and
`translation = movingCenterOfMass − fixedCenterOfMass`; for identical images
under identical masks the written translation is the zero vector. -/
theorem C4_moments_mode (s : CenteredTransformInitializer2)
    (tr : TransformState) (fx mv : ImageData)
    (ht : s.m_Transform = some tr) (hf : s.m_FixedImage = some fx)
    (hm : s.m_MovingImage = some mv)
    (hwf : (fx.geom.wfDim tr.dim && mv.geom.wfDim tr.dim) = true)
    (hpos : (fx.geom.sizesPositive && mv.geom.sizesPositive) = true)
    (h1 : s.m_UseMoments = true) :
    (InitializeTransform s).2 = none ∧
    (InitializeTransform s).1.m_Transform = some { tr with
      center := centerOfMass mv s.m_MovingImageMask,
      translation := vsub (centerOfMass mv s.m_MovingImageMask)
        (centerOfMass fx s.m_FixedImageMask) } ∧
    (InitializeTransform s).1.m_FixedCalculator =
      some ⟨centerOfMass fx s.m_FixedImageMask⟩ ∧
    (InitializeTransform s).1.m_MovingCalculator =
      some ⟨centerOfMass mv s.m_MovingImageMask⟩ ∧
    (fx = mv → s.m_FixedImageMask = s.m_MovingImageMask →
      vsub (centerOfMass mv s.m_MovingImageMask)
          (centerOfMass fx s.m_FixedImageMask) =
        List.replicate (centerOfMass mv s.m_MovingImageMask).length 0) := by
  refine ⟨?_, ?_, ?_, ?_, ?_⟩
  · simp [InitializeTransform, ht, hf, hm, hwf, hpos, h1]
  · simp [InitializeTransform, ht, hf, hm, hwf, hpos, h1]
  · simp [InitializeTransform, ht, hf, hm, hwf, hpos, h1]
  · simp [InitializeTransform, ht, hf, hm, hwf, hpos, h1]
  · intro hfx hmask
    rw [hfx, hmask]
    exact vsub_self _

/-- Witness for C4: a Moments run binding the same 2×2 image (non-uniform
intensities) as fixed and moving: the calculators are populated and the
translation is the zero vector. -/
theorem C4_moments_mode_witness :
    ((imgC4.geom.wfDim trC1.dim && imgC4.geom.wfDim trC1.dim) = true) ∧
    (InitializeTransform sC4).2 = none ∧
    (InitializeTransform sC4).1.m_FixedCalculator =
      some ⟨centerOfMass imgC4 none⟩ ∧
    (InitializeTransform sC4).1.m_MovingCalculator =
      some ⟨centerOfMass imgC4 none⟩ ∧
    vsub (centerOfMass imgC4 none) (centerOfMass imgC4 none) =
      List.replicate (centerOfMass imgC4 none).length 0 :=
  have h := C4_moments_mode sC4 trC1 imgC4 imgC4 rfl rfl rfl (by decide)
    (by decide) rfl
  ⟨by decide, h.1, h.2.2.1, h.2.2.2.1, h.2.2.2.2 rfl rfl⟩

/-- C8: each selector sets exactly one of the three flags (Geometry: none),
each is idempotent, a later selector call overrides any earlier one, at most
one flag is true after any sequence of selector calls, and OriginsOn after
MomentsOn leaves exactly UseOrigins set. -/
theorem C8_mode_selectors :
    (∀ s, flagsOf (GeometryOn s) = (false, false, false) ∧
      flagsOf (MomentsOn s) = (true, false, false) ∧
      flagsOf (OriginsOn s) = (false, true, false) ∧
      flagsOf (GeometryTopOn s) = (false, false, true)) ∧
    (∀ s, GeometryOn (GeometryOn s) = GeometryOn s ∧
      MomentsOn (MomentsOn s) = MomentsOn s ∧
      OriginsOn (OriginsOn s) = OriginsOn s ∧
      GeometryTopOn (GeometryTopOn s) = GeometryTopOn s) ∧
    (∀ s sel₁ sel₂,
      applySelector (applySelector s sel₁) sel₂ = applySelector s sel₂) ∧
    (∀ (s : CenteredTransformInitializer2) (sel : ModeSelector)
      (l : List ModeSelector),
      atMostOneFlag (l.foldl applySelector (applySelector s sel))) ∧
    (∀ s, flagsOf (OriginsOn (MomentsOn s)) = (false, true, false)) := by
  refine ⟨fun s => ⟨rfl, rfl, rfl, rfl⟩, fun s => ⟨rfl, rfl, rfl, rfl⟩,
    fun s sel₁ sel₂ => ?_, fun s sel l => foldl_applySelector_atMostOne l s sel,
    fun s => rfl⟩
  cases sel₁ <;> cases sel₂ <;> rfl

/-- C9: the moments-calculator members are unset on construction, are unset
after any successful run in a non-Moments mode, and are populated with the
two computed centers of mass exactly by a Moments-mode run. -/
theorem C9_calculator_population :
    mkInitializer.m_FixedCalculator = none ∧
    mkInitializer.m_MovingCalculator = none ∧
    (∀ s : CenteredTransformInitializer2, s.m_UseMoments = false →
      (InitializeTransform s).2 = none →
      (InitializeTransform s).1.m_FixedCalculator = none ∧
      (InitializeTransform s).1.m_MovingCalculator = none) ∧
    (∀ (s : CenteredTransformInitializer2) (tr : TransformState)
      (fx mv : ImageData),
      s.m_Transform = some tr → s.m_FixedImage = some fx →
      s.m_MovingImage = some mv →
      (fx.geom.wfDim tr.dim && mv.geom.wfDim tr.dim) = true →
      (fx.geom.sizesPositive && mv.geom.sizesPositive) = true →
      s.m_UseMoments = true →
      (InitializeTransform s).1.m_FixedCalculator =
        some ⟨centerOfMass fx s.m_FixedImageMask⟩ ∧
      (InitializeTransform s).1.m_MovingCalculator =
        some ⟨centerOfMass mv s.m_MovingImageMask⟩) := by
  refine ⟨rfl, rfl, ?_, ?_⟩
  · intro s hmom hsucc
    obtain ⟨t, f, m, fm, mm, um, uo, ut, fc, mc⟩ := s
    simp only at hmom
    subst hmom
    rcases t with _ | tr
    · simp [InitializeTransform] at hsucc
    rcases f with _ | fx
    · simp [InitializeTransform] at hsucc
    rcases m with _ | mv
    · simp [InitializeTransform] at hsucc
    simp only [InitializeTransform] at hsucc ⊢
    split_ifs at hsucc ⊢ <;> simp_all
  · intro s tr fx mv ht hf hm hwf hpos hmom
    constructor <;> simp [InitializeTransform, ht, hf, hm, hwf, hpos, hmom]

/-- Witness for C9: a Geometry-mode run leaves the calculators unset; a
Moments-mode run populates both with the computed centers of mass. -/
theorem C9_calculator_population_witness :
    ((InitializeTransform sC9geo).1.m_FixedCalculator = none ∧
      (InitializeTransform sC9geo).1.m_MovingCalculator = none) ∧
    ((InitializeTransform sC9).1.m_FixedCalculator =
        some ⟨centerOfMass imgC4 none⟩ ∧
      (InitializeTransform sC9).1.m_MovingCalculator =
        some ⟨centerOfMass imgC4 none⟩) :=
  ⟨C9_calculator_population.2.2.1 sC9geo rfl (by decide),
    C9_calculator_population.2.2.2 sC9 trC1 imgC4 imgC4 rfl rfl rfl (by decide)
      (by decide) rfl⟩

/-- C10: every mode selector assigns only the three mode flags: the bound
transform, both image references, both masks and both moments-calculator
members are unchanged by GeometryOn, MomentsOn, OriginsOn and
GeometryTopOn. -/
theorem C10_selector_frame (s : CenteredTransformInitializer2) :
    framePreserved s (GeometryOn s) ∧ framePreserved s (MomentsOn s) ∧
    framePreserved s (OriginsOn s) ∧ framePreserved s (GeometryTopOn s) :=
  ⟨⟨rfl, rfl, rfl, rfl, rfl, rfl, rfl⟩, ⟨rfl, rfl, rfl, rfl, rfl, rfl, rfl⟩,
    ⟨rfl, rfl, rfl, rfl, rfl, rfl, rfl⟩, ⟨rfl, rfl, rfl, rfl, rfl, rfl, rfl⟩⟩

end CTI2
